import Mathlib

set_option autoImplicit false

namespace Chotto

/-!
Shallow embedding of the chotto repository's verifiable core:

* `src/src/helpers/useMessage.ts` — the outgoing-message draft composable
  (module-level mutable list of drafts plus field setters);
* the Feed scroll handler and the shared `IntersectionObserver` callback shown
  in the repository's Feed optimization document (`src/unnamed/part_000`);
* the virtual-list windowing engine (`useVirtualList`): its body is not present
  in the sources (the document elides it), so it is modelled from the spec.
-/

/-! ## Part 1 — outgoing-message drafts (`src/src/helpers/useMessage.ts`)

The TypeScript module keeps one module-level `messages` array of drafts shared
across the whole process.  `useMessage(outId)` finds the draft with that id
(`find` + `indexOf`, i.e. the first match) or pushes a fresh one; the returned
helpers read and write `messages[index]`.  State is modelled as `List Message`,
and each helper as a function of the draft it reads and rewrites. -/

structure UploadedFile where
  url : String
  name : String
  size : Int
  typ : String
deriving DecidableEq, Repr

structure Reply where
  messageId : String
  typ : String
  text : Option String
  url : Option String
  filename : Option String
deriving DecidableEq, Repr

structure Message where
  id : String
  text : String
  file : Option UploadedFile
  reply : Option Reply
  forceSend : Bool
deriving DecidableEq, Repr

/-- The fresh draft pushed by `useMessage` when no draft with the given id
exists: `{ id: outId, text: '', file: undefined, forceSend: false }`
(the `reply` field is absent, i.e. `undefined`). -/
def freshDraft (outId : String) : Message :=
  { id := outId, text := "", file := none, reply := none, forceSend := false }

/-- Index of the first draft whose id equals `outId`
(`messages.value.find(({id}) => id == outId)` followed by `indexOf`). -/
def findMsgIdx (st : List Message) (outId : String) : Option Nat :=
  match st with
  | [] => none
  | m :: rest =>
      if m.id = outId then some 0 else (findMsgIdx rest outId).map (· + 1)

/-- Models `useMessage(outId)`: returns the index the composable captures in
`index.value` together with the (possibly extended) module-level list. -/
def useMessage (st : List Message) (outId : String) : Nat × List Message :=
  match findMsgIdx st outId with
  | some i => (i, st)
  | none => (st.length, st ++ [freshDraft outId])

/-- Models `getMessage()` — reads `messages.value[index.value]`. -/
def getMessage (st : List Message) (i : Nat) : Option Message :=
  st.get? i

/-- Models `setMessageText(text)`, which rebuilds the draft object:
`{ id: getMessage().id, text, file: getMessage().file, reply: getMessage().reply, forceSend: false }`. -/
def setMessageText (m : Message) (text : String) : Message :=
  { id := m.id, text := text, file := m.file, reply := m.reply, forceSend := false }

/-- Models `setMessageFile(file)`. -/
def setMessageFile (m : Message) (file : UploadedFile) : Message :=
  { id := m.id, text := m.text, file := some file, reply := m.reply, forceSend := false }

/-- Models `resetMessageFile()`. -/
def resetMessageFile (m : Message) : Message :=
  { id := m.id, text := m.text, file := none, reply := m.reply, forceSend := false }

/-- Models `setReply(reply)`. -/
def setReply (m : Message) (r : Reply) : Message :=
  { id := m.id, text := m.text, file := m.file, reply := some r, forceSend := false }

/-- Models `resetReply()`. -/
def resetReply (m : Message) : Message :=
  { id := m.id, text := m.text, file := m.file, reply := none, forceSend := false }

/-- Models `setForceSendMessage(val)`, which mutates only the `forceSend` field in place. -/
def setForceSendMessage (m : Message) (val : Bool) : Message :=
  { m with forceSend := val }

/-! Helper lemmas about `findMsgIdx`. -/

theorem findMsgIdx_some_id {st : List Message} {outId : String} {i : Nat}
    (h : findMsgIdx st outId = some i) :
    (st.get? i).map Message.id = some outId := by
  induction st generalizing i with
  | nil => simp [findMsgIdx] at h
  | cons m rest ih =>
      by_cases hm : m.id = outId
      · simp [findMsgIdx, hm] at h
        subst h
        simp [hm]
      · simp [findMsgIdx, hm] at h
        obtain ⟨j, hj, hji⟩ := h
        subst hji
        simpa using ih hj

theorem findMsgIdx_append (st st₂ : List Message) (outId : String) :
    findMsgIdx (st ++ st₂) outId =
      match findMsgIdx st outId with
      | some i => some i
      | none => (findMsgIdx st₂ outId).map (· + st.length) := by
  induction st with
  | nil => simp [findMsgIdx]
  | cons m rest ih =>
      by_cases hm : m.id = outId
      · simp [findMsgIdx, hm]
      · cases hrest : findMsgIdx rest outId with
        | some i => simp [findMsgIdx, hm, ih, hrest]
        | none =>
            cases h₂ : findMsgIdx st₂ outId with
            | none => simp [findMsgIdx, hm, ih, hrest, h₂]
            | some j =>
                simp [findMsgIdx, hm, ih, hrest, h₂, Nat.add_assoc]

/-- C9: `useMessage(outId)` yields an index into the shared module-level list
at which `getMessage()` reads a draft whose id is `outId`; when no draft with
that id existed, the fresh draft `{id: outId, text: '', file: undefined,
reply: undefined, forceSend: false}` is appended; and a second call with the
same `outId` resolves to the same index of the same list, so both calls read
and mutate the same draft. -/
theorem useMessage_shared_draft (st : List Message) (outId : String) :
    (getMessage (useMessage st outId).2 (useMessage st outId).1).map Message.id
      = some outId ∧
    (findMsgIdx st outId = none →
      (useMessage st outId).2 = st ++ [freshDraft outId] ∧
      freshDraft outId =
        { id := outId, text := "", file := none, reply := none, forceSend := false }) ∧
    useMessage (useMessage st outId).2 outId = useMessage st outId := by
  cases h : findMsgIdx st outId with
  | some i =>
      refine ⟨?_, ?_, ?_⟩
      · simpa [useMessage, h, getMessage] using findMsgIdx_some_id h
      · intro hnone; simp at hnone
      · simp [useMessage, h]
  | none =>
      have happ : findMsgIdx (st ++ [freshDraft outId]) outId = some st.length := by
        rw [findMsgIdx_append, h]
        simp [findMsgIdx, freshDraft]
      refine ⟨?_, fun _ => ⟨by simp [useMessage, h], rfl⟩, ?_⟩
      · simp [useMessage, h, getMessage, freshDraft]
      · simp [useMessage, h, happ]

/-- C9 witness: concrete instance on the empty draft list and id `"a"`. -/
theorem useMessage_shared_draft_witness :
    (getMessage (useMessage [] "a").2 (useMessage [] "a").1).map Message.id
      = some "a" ∧
    (useMessage [] "a").2 = [] ++ [freshDraft "a"] ∧
    useMessage (useMessage [] "a").2 "a" = useMessage [] "a" := by
  have h := useMessage_shared_draft [] "a"
  exact ⟨h.1, (h.2.1 rfl).1, h.2.2⟩

/-- C10: each rebuilding setter (`setMessageText`, `setMessageFile`,
`resetMessageFile`, `setReply`, `resetReply`) keeps the draft's id and every
field it does not target, and unconditionally writes `forceSend := false`;
`setForceSendMessage` changes only `forceSend` and is the one operation that
can set it to `true`. -/
theorem draft_setters_frame (m : Message) (text : String)
    (f : UploadedFile) (r : Reply) (b : Bool) :
    setMessageText m text = { m with text := text, forceSend := false } ∧
    setMessageFile m f = { m with file := some f, forceSend := false } ∧
    resetMessageFile m = { m with file := none, forceSend := false } ∧
    setReply m r = { m with reply := some r, forceSend := false } ∧
    resetReply m = { m with reply := none, forceSend := false } ∧
    setForceSendMessage m b = { m with forceSend := b } ∧
    (setForceSendMessage m true).forceSend = true :=
  ⟨rfl, rfl, rfl, rfl, rfl, rfl, rfl⟩

/-! ## Part 2 — Feed scroll handling and the shared IntersectionObserver
(`src/unnamed/part_000`, the Feed.vue optimization document).

`handleScroll` reads `{scrollTop, scrollHeight, clientHeight}` from the
container once, stores the new scroll top in the component's `scrollTop` ref,
emits `loadMore` whenever `scrollTop < 300`, and emits `loadMoreDown`
whenever `scrollHeight - scrollTop - clientHeight < 300`.  The trailing
`emitVisibleMessages()` call emits visibility events only (its body is not
shown in the document) and is therefore not part of the pagination model.
The shared observer callback walks the entries in order and, for every entry
with `isIntersecting` whose `data-message-id` attribute is present and
non-empty (JavaScript truthiness of `getAttribute`), emits one
`messageVisible` event carrying that single id. -/

structure ScrollMetrics where
  scrollTop : Int
  scrollHeight : Int
  clientHeight : Int
deriving DecidableEq, Repr

inductive FeedEvent where
  | loadMore
  | loadMoreDown
  | messageVisible (messageId : String)
deriving DecidableEq, Repr

/-- One `handleScroll` invocation: returns the updated `scrollTop` ref value
and the list of events emitted, in emission order. -/
def handleScroll (scrollTopRef : Int) (m : ScrollMetrics) : Int × List FeedEvent :=
  let newScrollTop := m.scrollTop
  (newScrollTop,
    (if newScrollTop < 300 then [FeedEvent.loadMore] else []) ++
      (if m.scrollHeight - newScrollTop - m.clientHeight < 300 then
        [FeedEvent.loadMoreDown] else []))

/-- Runs a sequence of scroll events through `handleScroll`, threading the
`scrollTop` ref (the only component state the handler touches) and
concatenating the emitted events. -/
def runScrollEvents (st : Int) : List ScrollMetrics → Int × List FeedEvent
  | [] => (st, [])
  | m :: ms =>
      let r := handleScroll st m
      let rest := runScrollEvents r.1 ms
      (rest.1, r.2 ++ rest.2)

def isLoadMore : FeedEvent → Bool
  | FeedEvent.loadMore => true
  | _ => false

/-- Number of `loadMore` (load-older) emissions in an event list. -/
def countLoadMore (evs : List FeedEvent) : Nat :=
  evs.countP isLoadMore

/-- One entry handed to the shared IntersectionObserver callback:
its intersection flag and the value of `getAttribute('data-message-id')`
(`none` models a missing attribute). -/
structure ObserverEntry where
  isIntersecting : Bool
  messageId : Option String
deriving DecidableEq, Repr

/-- The shared observer callback of `src/unnamed/part_000`: for each entry,
`if (entry.isIntersecting)` and `if (messageId)` guard a single
`emit('messageVisible', { messageId })`. -/
def observerCallback : List ObserverEntry → List FeedEvent
  | [] => []
  | e :: rest =>
      (if e.isIntersecting then
        match e.messageId with
        | some mid => if mid = "" then [] else [FeedEvent.messageVisible mid]
        | none => []
      else []) ++ observerCallback rest

/-- C1 counterexample: a scroll event outside the top threshold zone
(scrollTop 500) followed by two events inside it (scrollTop 100 < 300) — one
crossing into the zone — produces two `loadMore` emissions, not the single
one the claim allows: the handler re-fires on every event inside the zone. -/
theorem handleScroll_loadMore_refires :
    countLoadMore (runScrollEvents 0
      [⟨500, 2000, 500⟩, ⟨100, 2000, 500⟩, ⟨100, 2000, 500⟩]).2 = 2 ∧
    countLoadMore (runScrollEvents 0
      [⟨500, 2000, 500⟩, ⟨100, 2000, 500⟩, ⟨100, 2000, 500⟩]).2 ≠ 1 := by
  constructor
  · rfl
  · decide

/-- C1 (amended): the `loadMore` signal is level-triggered, not
edge-triggered — across any sequence of scroll events it is emitted exactly
once per event whose scrollTop is below the 300px threshold, regardless of
the previous scroll position. -/
theorem handleScroll_loadMore_level_triggered (st : Int) (evts : List ScrollMetrics) :
    countLoadMore (runScrollEvents st evts).2 =
      (evts.filter (fun m => decide (m.scrollTop < 300))).length := by
  induction evts generalizing st with
  | nil => simp [runScrollEvents, countLoadMore]
  | cons m ms ih =>
      have ih' : List.countP isLoadMore (runScrollEvents m.scrollTop ms).2 =
          (ms.filter (fun m => decide (m.scrollTop < 300))).length := ih m.scrollTop
      by_cases hm : m.scrollTop < 300 <;>
        by_cases hb : m.scrollHeight - m.scrollTop - m.clientHeight < 300 <;>
          simp [runScrollEvents, handleScroll, countLoadMore, List.countP_cons,
            List.countP_append, hm, hb, isLoadMore, ih', Nat.add_comm]

/-- An entry leads to an emission iff it is intersecting and its
`data-message-id` attribute is present and non-empty. -/
def entryEmits (e : ObserverEntry) : Bool :=
  e.isIntersecting && (e.messageId.getD "" != "")

/-- C2 counterexample: one observation-callback invocation reporting two
newly-intersecting items emits two `messageVisible` events, each carrying a
single identifier — not the single set-carrying event the claim requires. -/
theorem observerCallback_not_batched :
    observerCallback [⟨true, some "a"⟩, ⟨true, some "b"⟩] =
      [FeedEvent.messageVisible "a", FeedEvent.messageVisible "b"] ∧
    (observerCallback [⟨true, some "a"⟩, ⟨true, some "b"⟩]).length ≠ 1 := by
  constructor
  · rfl
  · decide

/-- C2 (amended): within one observation-callback invocation the coordinator
emits one `messageVisible` event per intersecting entry with a present,
non-empty id — the emitted list is exactly the per-entry map over those
entries, so the number of events equals the number of such entries, never a
single batched event. -/
theorem observerCallback_per_entry (entries : List ObserverEntry) :
    observerCallback entries =
      (entries.filter entryEmits).map
        (fun e => FeedEvent.messageVisible (e.messageId.getD "")) ∧
    (observerCallback entries).length = entries.countP entryEmits := by
  have key : observerCallback entries =
      (entries.filter entryEmits).map
        (fun e => FeedEvent.messageVisible (e.messageId.getD "")) := by
    induction entries with
    | nil => rfl
    | cons e rest ih =>
        cases hI : e.isIntersecting
        · simp [observerCallback, entryEmits, hI, ih, List.filter_cons]
        · cases hmid : e.messageId with
          | none => simp [observerCallback, entryEmits, hI, hmid, ih, List.filter_cons]
          | some mid =>
              by_cases hm : mid = "" <;>
                simp [observerCallback, entryEmits, hI, hmid, hm, ih, List.filter_cons]
  refine ⟨key, ?_⟩
  rw [key, List.countP_eq_length_filter]
  simp

/-! ## Part 3 — the virtual-list windowing engine.

The Feed optimization document introduces the `useVirtualList` composable but
elides its body (`// Логика виртуализации`), so the windowing computation is
modelled from the spec (§4.1): cumulative offsets, first-index searches for
the visible range, overscan expansion with clamping, and `totalExtent` as the
sum of all item heights.  The `viewportHeight ≤ 0` and negative
`scrollOffset`/`overscan` edge cases follow the spec's stated clamping. -/

/-- A height model: either one fixed height for all items, or a per-item
lookup with a fallback default height for identifiers the lookup omits. -/
inductive HeightModel (T : Type) where
  | fixed (h : Nat)
  | perItem (lookup : T → Option Nat) (fallback : Nat)

/-- The height the model assigns to one item. -/
def itemHeightOf {T : Type} (hm : HeightModel T) (x : T) : Nat :=
  match hm with
  | HeightModel.fixed h => h
  | HeightModel.perItem lookup fallback => (lookup x).getD fallback

/-- Per-index heights of an item list under a height model. -/
def heightsOf {T : Type} (hm : HeightModel T) (items : List T) : List Nat :=
  items.map (itemHeightOf hm)

/-- Cumulative offset of index `i`: the sum of the heights of all preceding
items (`offset(i+1) = offset(i) + height(i)`, `offset 0 = 0`). -/
def offsetAt (heights : List Nat) (i : Nat) : Nat :=
  (heights.take i).sum

/-- First index at or after `s`, within `fuel` steps, satisfying `p`;
returns `s + fuel` when none does.  This is what the spec's binary search
over the monotone cumulative-offset table computes. -/
def firstIdxFrom (p : Nat → Bool) : Nat → Nat → Nat
  | s, 0 => s
  | s, fuel + 1 => if p s then s else firstIdxFrom p (s + 1) fuel

/-- Start of the visible range: the first index whose offset plus height
exceeds `scrollOffset` (spec §4.1 step 2); `length` when none. -/
def startVisible (heights : List Nat) (off : Nat) : Nat :=
  firstIdxFrom (fun i => decide (off < offsetAt heights (i + 1))) 0 heights.length

/-- Exclusive end of the visible range: the first index whose offset reaches
the bottom edge `scrollOffset + viewportHeight` (an item starting exactly at
the bottom edge is outside the visible range, matching the spec's concrete
scenario in §8); `length` when none. -/
def endVisible (heights : List Nat) (bottom : Nat) : Nat :=
  firstIdxFrom (fun i => decide (bottom ≤ offsetAt heights i)) 0 heights.length

/-- A materialized item: index, absolute offset, height, payload. -/
structure VisibleItem (T : Type) where
  index : Nat
  offset : Nat
  height : Nat
  payload : T
deriving DecidableEq, Repr

/-- Result of one window computation. -/
structure WindowResult (T : Type) where
  visibleItems : List (VisibleItem T)
  totalExtent : Nat
  startIndex : Nat
  endIndex : Nat
deriving DecidableEq, Repr

/-- One `VisibleItem` per index in `[s, e)`, with its precomputed offset and
height (spec §4.1 step 4). -/
def materialize {T : Type} (items : List T) (heights : List Nat) (s e : Nat) :
    List (VisibleItem T) :=
  (List.range (e - s)).filterMap (fun k =>
    match items.get? (s + k), heights.get? (s + k) with
    | some x, some h => some ⟨s + k, offsetAt heights (s + k), h, x⟩
    | _, _ => none)

/-- Modelled from the spec: the body of the `useVirtualList` composable is
elided in the source, so `computeWindow` follows §4.1 literally — cumulative
offsets, first-index searches for the visible range, overscan expansion
(floored at 0, capped at `length`), `totalExtent` as the sum of all heights,
a window of size 0 for `viewportHeight ≤ 0`, and negative `scrollOffset` and
`overscan` clamped to 0. -/
def computeWindow {T : Type} (items : List T) (hm : HeightModel T)
    (viewportHeight scrollOffset overscan : Int) : WindowResult T :=
  let heights := heightsOf hm items
  let total := heights.sum
  if viewportHeight ≤ 0 then
    { visibleItems := [], totalExtent := total, startIndex := 0, endIndex := 0 }
  else
    let off := scrollOffset.toNat
    let ov := overscan.toNat
    let s := startVisible heights off
    let e := endVisible heights (off + viewportHeight.toNat)
    let startIndex := s - ov
    let endIndex := min items.length (e + ov)
    { visibleItems := materialize items heights startIndex endIndex,
      totalExtent := total, startIndex := startIndex, endIndex := endIndex }

/-- Modelled from the spec: the O(1) fixed-height fast path
(`index = floor(scrollOffset / itemHeight)`, §4.1) — direct arithmetic, no
cumulative table: start of the visible range by floor division, its end by
ceiling division to the bottom edge, offsets as `index * itemHeight`, and
`totalExtent = length * itemHeight`. -/
def computeWindowFixed {T : Type} (items : List T) (itemHeight : Nat)
    (viewportHeight scrollOffset overscan : Int) : WindowResult T :=
  let n := items.length
  let total := n * itemHeight
  if viewportHeight ≤ 0 then
    { visibleItems := [], totalExtent := total, startIndex := 0, endIndex := 0 }
  else
    let off := scrollOffset.toNat
    let ov := overscan.toNat
    let s := min (off / itemHeight) n
    let e := min ((off + viewportHeight.toNat + itemHeight - 1) / itemHeight) n
    let startIndex := s - ov
    let endIndex := min n (e + ov)
    { visibleItems := (List.range (endIndex - startIndex)).filterMap (fun k =>
        match items.get? (startIndex + k) with
        | some x => some ⟨startIndex + k, (startIndex + k) * itemHeight, itemHeight, x⟩
        | none => none),
      totalExtent := total, startIndex := startIndex, endIndex := endIndex }

/-! Helper lemmas about `firstIdxFrom` and cumulative offsets. -/

theorem firstIdxFrom_ge (p : Nat → Bool) (s fuel : Nat) :
    s ≤ firstIdxFrom p s fuel := by
  induction fuel generalizing s with
  | zero => simp [firstIdxFrom]
  | succ fuel ih =>
      by_cases h : p s = true
      · simp [firstIdxFrom, h]
      · simp only [firstIdxFrom, h, if_false]
        exact le_trans (Nat.le_succ s) (ih (s + 1))

theorem firstIdxFrom_le (p : Nat → Bool) (s fuel : Nat) :
    firstIdxFrom p s fuel ≤ s + fuel := by
  induction fuel generalizing s with
  | zero => simp [firstIdxFrom]
  | succ fuel ih =>
      by_cases h : p s = true
      · simp [firstIdxFrom, h]
      · simp [firstIdxFrom, h]
        have := ih (s + 1)
        omega

theorem firstIdxFrom_mono (p q : Nat → Bool) (hpq : ∀ i, q i = true → p i = true)
    (s fuel : Nat) : firstIdxFrom p s fuel ≤ firstIdxFrom q s fuel := by
  induction fuel generalizing s with
  | zero => simp [firstIdxFrom]
  | succ fuel ih =>
      by_cases hp : p s = true
      · simpa [firstIdxFrom, hp] using firstIdxFrom_ge q s (fuel + 1)
      · have hq : ¬q s = true := fun h => hp (hpq s h)
        simp only [firstIdxFrom, hp, hq, if_false]
        exact ih (s + 1)

theorem firstIdxFrom_eq_min (p : Nat → Bool) (m s fuel : Nat)
    (hp : ∀ i, s ≤ i → i < s + fuel → (p i = true ↔ m ≤ i)) :
    firstIdxFrom p s fuel = max s (min m (s + fuel)) := by
  induction fuel generalizing s with
  | zero => simp [firstIdxFrom]
  | succ fuel ih =>
      by_cases hps : p s = true
      · have hm : m ≤ s := (hp s le_rfl (by omega)).mp hps
        simp only [firstIdxFrom, hps, if_true]
        omega
      · have hm : ¬m ≤ s := fun h => hps ((hp s le_rfl (by omega)).mpr h)
        have ih' := ih (s + 1) (fun i hi1 hi2 => hp i (by omega) (by omega))
        simp [firstIdxFrom, hps, ih']
        omega

theorem offsetAt_succ (heights : List Nat) (i : Nat) :
    offsetAt heights (i + 1) = offsetAt heights i + (heights[i]?).getD 0 := by
  unfold offsetAt
  rw [List.take_succ]
  cases h : heights[i]? <;> simp [h]

theorem offsetAt_mono (heights : List Nat) (i : Nat) :
    offsetAt heights i ≤ offsetAt heights (i + 1) := by
  rw [offsetAt_succ]
  exact Nat.le_add_right _ _

theorem offsetAt_replicate (n h i : Nat) :
    offsetAt (List.replicate n h) i = min i n * h := by
  unfold offsetAt
  rw [List.take_replicate, List.sum_replicate, smul_eq_mul]

theorem get?_replicate (n h i : Nat) :
    (List.replicate n h).get? i = if i < n then some h else none := by
  induction n generalizing i with
  | zero => simp
  | succ n ih =>
      cases i with
      | zero => simp [List.replicate_succ]
      | succ i =>
          rw [List.replicate_succ]
          simp only [List.get?_cons_succ, ih]
          by_cases hi : i < n <;> simp [hi]

theorem heightsOf_fixed {T : Type} (h : Nat) (items : List T) :
    heightsOf (HeightModel.fixed h) items = List.replicate items.length h := by
  unfold heightsOf itemHeightOf
  induction items with
  | nil => rfl
  | cons x xs ih => simp [List.replicate_succ, ih]

theorem floorDiv_le_iff (off h i : Nat) (hh : 0 < h) :
    off / h ≤ i ↔ off < (i + 1) * h :=
  Nat.lt_succ_iff.symm.trans (Nat.div_lt_iff_lt_mul hh)

theorem ceilDiv_le_iff (b h i : Nat) (hh : 0 < h) :
    (b + h - 1) / h ≤ i ↔ b ≤ i * h := by
  have h1 : (i + 1 ≤ (b + h - 1) / h) ↔ (i + 1) * h ≤ b + h - 1 :=
    Nat.le_div_iff_mul_le hh
  have h2 : (i + 1) * h = i * h + h := by ring
  rw [h2] at h1
  generalize hA : (b + h - 1) / h = A at h1 ⊢
  generalize hB : i * h = B at h1 ⊢
  omega

theorem startVisible_replicate (n h off : Nat) (hh : 0 < h) :
    startVisible (List.replicate n h) off = min (off / h) n := by
  unfold startVisible
  rw [List.length_replicate,
    firstIdxFrom_eq_min _ (off / h) 0 n (fun i _ hi2 => ?_)]
  · simp [Nat.zero_max]
  · rw [decide_eq_true_iff, offsetAt_replicate]
    have hmin : min (i + 1) n = i + 1 := by omega
    rw [hmin, ← floorDiv_le_iff off h i hh]

theorem endVisible_replicate (n h bottom : Nat) (hh : 0 < h) :
    endVisible (List.replicate n h) bottom = min ((bottom + h - 1) / h) n := by
  unfold endVisible
  rw [List.length_replicate,
    firstIdxFrom_eq_min _ ((bottom + h - 1) / h) 0 n (fun i _ hi2 => ?_)]
  · simp [Nat.zero_max]
  · rw [decide_eq_true_iff, offsetAt_replicate]
    have hmin : min i n = i := by omega
    rw [hmin, ← ceilDiv_le_iff bottom h i hh]

theorem startVisible_le_endVisible (heights : List Nat) (off bottom : Nat)
    (hb : off < bottom) :
    startVisible heights off ≤ endVisible heights bottom := by
  unfold startVisible endVisible
  apply firstIdxFrom_mono
  intro i hq
  rw [decide_eq_true_iff] at hq ⊢
  have := offsetAt_mono heights i
  omega

theorem startVisible_le_length (heights : List Nat) (off : Nat) :
    startVisible heights off ≤ heights.length := by
  simpa using firstIdxFrom_le _ 0 heights.length

theorem endVisible_le_length (heights : List Nat) (bottom : Nat) :
    endVisible heights bottom ≤ heights.length := by
  simpa using firstIdxFrom_le _ 0 heights.length

theorem heightsOf_length {T : Type} (hm : HeightModel T) (items : List T) :
    (heightsOf hm items).length = items.length := by
  simp [heightsOf]

theorem materialize_replicate {T : Type} (items : List T) (h a b : Nat) :
    materialize items (List.replicate items.length h) a b =
      (List.range (b - a)).filterMap (fun k =>
        match items.get? (a + k) with
        | some x => some ⟨a + k, (a + k) * h, h, x⟩
        | none => none) := by
  unfold materialize
  refine congrArg (fun f => List.filterMap f (List.range (b - a))) (funext fun k => ?_)
  cases hx : items.get? (a + k) with
  | none => rfl
  | some x =>
      obtain ⟨hlt, -⟩ := List.get?_eq_some.mp hx
      rw [get?_replicate]
      simp [hlt, offsetAt_replicate, Nat.min_eq_left (Nat.le_of_lt hlt)]

/-- C4: the O(1) fixed-height fast path and the generic cumulative-offset
path return identical results (same `visibleItems`, window and extent) for
every uniform-height input with positive item height, every scroll offset,
viewport height and overscan.  (At item height 0 the fast-path formula
`floor(scrollOffset / itemHeight)` is not defined, so the fast path applies
to positive fixed heights.) -/
theorem computeWindowFixed_eq_generic {T : Type} (items : List T) (h : Nat)
    (hh : 0 < h) (vp so ov : Int) :
    computeWindowFixed items h vp so ov =
      computeWindow items (HeightModel.fixed h) vp so ov := by
  by_cases hvp : vp ≤ 0
  · simp [computeWindow, computeWindowFixed, hvp, heightsOf_fixed,
      List.sum_replicate, smul_eq_mul, Nat.mul_comm]
  · simp only [computeWindow, computeWindowFixed, hvp, if_false, heightsOf_fixed]
    rw [startVisible_replicate _ _ _ hh, endVisible_replicate _ _ _ hh,
      List.sum_replicate, smul_eq_mul, materialize_replicate]

/-- C4 witness: concrete instance at fixed height 80. -/
theorem computeWindowFixed_eq_generic_witness :
    0 < 80 ∧
    computeWindowFixed [10, 20, 30] 80 800 4000 5 =
      computeWindow [10, 20, 30] (HeightModel.fixed 80) 800 4000 5 :=
  ⟨by decide, computeWindowFixed_eq_generic [10, 20, 30] 80 (by decide) 800 4000 5⟩

/-- C6: for every item list, height model, scroll offset, viewport height
and overscan, the computed window satisfies
`startIndex ≤ endIndex ≤ items.length` (and both are naturals, hence
at least 0). -/
theorem computeWindow_bounds {T : Type} (items : List T) (hm : HeightModel T)
    (vp so ov : Int) :
    (computeWindow items hm vp so ov).startIndex ≤
      (computeWindow items hm vp so ov).endIndex ∧
    (computeWindow items hm vp so ov).endIndex ≤ items.length := by
  by_cases hvp : vp ≤ 0
  · simp [computeWindow, hvp]
  · have hbot : so.toNat < so.toNat + vp.toNat := by omega
    have h1 := startVisible_le_endVisible (heightsOf hm items) so.toNat
      (so.toNat + vp.toNat) hbot
    have h2 := startVisible_le_length (heightsOf hm items) so.toNat
    rw [heightsOf_length] at h2
    simp only [computeWindow, hvp, if_false]
    constructor
    · omega
    · omega

/-- C5: `totalExtent` is the sum of all item heights, does not depend on
`scrollOffset` or `overscan`, and is 0 for the empty item sequence. -/
theorem computeWindow_totalExtent {T : Type} (items : List T) (hm : HeightModel T)
    (vp so ov so₂ ov₂ : Int) :
    (computeWindow items hm vp so ov).totalExtent = (heightsOf hm items).sum ∧
    (computeWindow items hm vp so ov).totalExtent =
      (computeWindow items hm vp so₂ ov₂).totalExtent ∧
    (computeWindow ([] : List T) hm vp so ov).totalExtent = 0 := by
  by_cases hvp : vp ≤ 0 <;> simp [computeWindow, hvp, heightsOf]

/-- C7: the windowing computation is total and defensive — a negative
`scrollOffset` behaves exactly like 0, `viewportHeight ≤ 0` yields a window
of size 0 with no materialized items, and a single zero-height item is
materialized with offset 0 and zero extent (with the default overscan 5)
without breaking offset computation. -/
theorem computeWindow_defensive {T : Type} (items : List T) (hm : HeightModel T)
    (vp so ov : Int) (x : T) :
    (so ≤ 0 → computeWindow items hm vp so ov = computeWindow items hm vp 0 ov) ∧
    (vp ≤ 0 → (computeWindow items hm vp so ov).visibleItems = [] ∧
      (computeWindow items hm vp so ov).startIndex =
        (computeWindow items hm vp so ov).endIndex) ∧
    (computeWindow [x] (HeightModel.fixed 0) 800 0 5).visibleItems =
      [⟨0, 0, 0, x⟩] ∧
    (computeWindow [x] (HeightModel.fixed 0) 800 0 5).totalExtent = 0 := by
  refine ⟨?_, ?_, ?_, ?_⟩
  · intro hso
    have h0 : so.toNat = 0 := by omega
    simp [computeWindow, h0]
  · intro hvp
    simp [computeWindow, hvp]
  · rfl
  · rfl

/-- C7 witness: the clamps at the concrete inputs `scrollOffset = -3` and
`viewportHeight = -5`. -/
theorem computeWindow_defensive_witness :
    (computeWindow [1, 2] (HeightModel.fixed 80) 800 (-3) 5 =
      computeWindow [1, 2] (HeightModel.fixed 80) 800 0 5) ∧
    ((computeWindow [1, 2] (HeightModel.fixed 80) (-5) 3 5).visibleItems = [] ∧
      (computeWindow [1, 2] (HeightModel.fixed 80) (-5) 3 5).startIndex =
        (computeWindow [1, 2] (HeightModel.fixed 80) (-5) 3 5).endIndex) :=
  ⟨(computeWindow_defensive [1, 2] (HeightModel.fixed 80) 800 (-3) 5 1).1 (by decide),
    (computeWindow_defensive [1, 2] (HeightModel.fixed 80) (-5) 3 5 1).2.1 (by decide)⟩

set_option maxRecDepth 8000 in
/-- C3: 1,000 items of fixed height 80, viewport height 800, overscan 5,
scrollOffset 4000 — the window is `startIndex = 45`, `endIndex = 65` and
`totalExtent = 80000`. -/
theorem computeWindow_concrete_scenario :
    (computeWindow (List.range 1000) (HeightModel.fixed 80) 800 4000 5).startIndex = 45 ∧
    (computeWindow (List.range 1000) (HeightModel.fixed 80) 800 4000 5).endIndex = 65 ∧
    (computeWindow (List.range 1000) (HeightModel.fixed 80) 800 4000 5).totalExtent = 80000 := by
  refine ⟨?_, ?_, ?_⟩ <;> rfl

/-! ## Part 4 — observation-target reattachment.

The source shows only the creation of the single shared observer and its
`disconnect` on unmount; the per-window target swap is not in the sources,
so it is modelled from the spec (§4.2). -/

/-- Coordinator state: the identifiers currently registered as observation
targets, and the visibility-state mapping (identifier paired with its
"currently intersecting" flag). -/
structure CoordinatorState where
  observed : List String
  visibility : List (String × Bool)
deriving DecidableEq, Repr

/-- Modelled from the spec: the observation-lifecycle reattachment step of
§4.2, absent from the sources.  On a window recomputation whose materialized
identifier set is `newIds`: stop observing targets no longer in the window,
start observing newly materialized targets, and purge visibility-state
entries for the removed targets. -/
def reattach (newIds : List String) (st : CoordinatorState) : CoordinatorState :=
  let removed := st.observed.filter (fun i => !newIds.contains i)
  let added := newIds.filter (fun i => !st.observed.contains i)
  { observed := st.observed.filter (fun i => newIds.contains i) ++ added,
    visibility := st.visibility.filter (fun p => !removed.contains p.1) }

/-- C8: after a window recomputation the observed-target set equals exactly
the materialized window's identifier set (no leaked, no missing
subscriptions), and — provided every visibility entry was keyed by an
observed target before — no visibility entry remains for an identifier
outside the new window. -/
theorem reattach_invariant (newIds : List String) (st : CoordinatorState)
    (hvis : ∀ p ∈ st.visibility, p.1 ∈ st.observed) :
    (∀ x : String, x ∈ (reattach newIds st).observed ↔ x ∈ newIds) ∧
    (∀ p ∈ (reattach newIds st).visibility, p.1 ∈ newIds) := by
  constructor
  · intro x
    by_cases hin : x ∈ st.observed <;> by_cases hnew : x ∈ newIds <;>
      simp [reattach, hin, hnew]
  · intro p hp
    simp only [reattach, List.mem_filter] at hp
    obtain ⟨hpv, hprem⟩ := hp
    have hobs := hvis p hpv
    by_cases hnew : p.1 ∈ newIds
    · exact hnew
    · exfalso
      simp [hobs, hnew] at hprem

/-- C8 witness: identifier `"c"` enters the observed set when the window
becomes `["b", "c"]` from a state observing `["a", "b"]`. -/
theorem reattach_invariant_witness :
    "c" ∈ (reattach ["b", "c"] ⟨["a", "b"], [("a", true)]⟩).observed :=
  ((reattach_invariant ["b", "c"] ⟨["a", "b"], [("a", true)]⟩
    (by decide)).1 "c").mpr (by decide)

end Chotto
